import Mathlib

/-!
Verification development for the odata-search-builder repository.

The development shallowly embeds the two source modules:

* SearchBuilder.ts — the value formatter, the stateless clause generators,
  and the fluent builder whose sole state is an ordered list of clause
  strings (queryParts);
* SearchParser.ts — the regex tokenizer and the single-pass recombination
  that replays tokens as builder calls.

JavaScript specifics that matter here are modelled explicitly: property
lookup that can miss (yielding undefined), inherited properties of the
objects the dynamic lookups can reach (carved out into an explicit
outside-model marker, so no theorem can lean on their absence), the falsy
check on strings, out-of-bounds array reads yielding undefined, and
thrown errors as an Except error type.  Numeric strings are recognised by
the exact ToNumber string grammar (decimal with optional fraction and
exponent, hex/octal/binary, Infinity, empty and all-whitespace), so a
token converts to a number in the model precisely when the source's
isNaN test accepts it; the converted value is carried as the literal's
exact decimal value (or an infinity).  JavaScript stores the nearest IEEE
double instead, and prints very large or very small magnitudes in
exponent notation: that rounding and that notation switch are outside
the model, and every numeral a theorem here evaluates is a small integer
or short decimal on which the model and JavaScript agree exactly.
-/

namespace OData

/-- The runtime error kinds the two modules can raise, plus a fuel marker
for the one loop in the parser that is not structurally terminating. -/
inductive JsError where
  /-- SearchBuilder.any: "Invalid operator" (the static lookup missed). -/
  | invalidOperator : JsError
  /-- SearchBuilder.in: "'in' requires array". -/
  | inRequiresArray : JsError
  /-- Parser: "Expected operator after field ..., but got nothing". -/
  | expectedOperator (field : String) : JsError
  /-- Parser: "Expected '(' after 'in' for field ...". -/
  | expectedOpenParen (field : String) : JsError
  /-- Parser: "Expected value after operator ... for field ...". -/
  | expectedValue (op field : String) : JsError
  /-- Parser: "Unsupported operator: ...". -/
  | unsupportedOperator (op : String) : JsError
  /-- A dynamically dispatched method name that is not a function. -/
  | notAFunction (fn : String) : JsError
  /-- Marks a dynamic lookup reaching an own non-method or inherited
  property whose varied JavaScript behavior this embedding does not
  determine; no verified property depends on such a name. -/
  | outsideModel : JsError
  /-- Fuel exhausted: marks a loop of the source that runs forever. -/
  | fuelOut : JsError
deriving DecidableEq, Repr

/-- A non-zero exact decimal m * 10^e in the canonical form where m is
not a multiple of ten (and the zero value as m = 0, e = 0).  Every value
of the ToNumber string grammar has this form exactly, and the canonical
form makes structural equality coincide with value equality.  All
arithmetic stays in kernel-computable integers. -/
structure Dec10 where
  m : Int
  e : Int
deriving DecidableEq, Repr

/-- Strip the factors of ten out of m: returns (m', k) with
m = m' * 10^k and, fuel permitting (the callers pass m.natAbs, an upper
bound on the number of factors), m' not a multiple of ten. -/
def stripTens : Nat → Int → Int × Nat
  | 0, m => (m, 0)
  | fuel + 1, m =>
    if m % 10 = 0 ∧ m ≠ 0 then
      let p := stripTens fuel (m / 10)
      (p.1, p.2 + 1)
    else (m, 0)

/-- The canonical Dec10 of value m * 10^e. -/
def Dec10.make (m e : Int) : Dec10 :=
  if m = 0 then ⟨0, 0⟩
  else
    let p := stripTens m.natAbs m
    ⟨p.1, e + p.2⟩

/-- The positional decimal rendering of an exact decimal: sign, integer
digits and, for a negative exponent, a point with the fraction digits
(canonical m gives no trailing fraction zeros). -/
def Dec10.render (d : Dec10) : String :=
  let sign := if d.m < 0 then "-" else ""
  let ds := toString d.m.natAbs
  if 0 ≤ d.e then
    sign ++ ds ++ String.mk (List.replicate d.e.toNat '0')
  else
    let k := (-d.e).toNat
    let l := ds.length
    if k < l then
      sign ++ String.mk (ds.data.take (l - k)) ++ "." ++ String.mk (ds.data.drop (l - k))
    else
      sign ++ "0." ++ String.mk (List.replicate (k - l) '0') ++ ds

/-- A JavaScript number as this embedding carries it: an infinity, or a
finite value held as the exact decimal of the numeric literal it came
from.  JavaScript stores the nearest IEEE double instead; the two agree
on every value a verified property evaluates (see the file comment). -/
inductive JsNum where
  | finite (d : Dec10) : JsNum
  | inf : JsNum
  | negInf : JsNum
deriving DecidableEq, Repr

/-- JavaScript unary negation on the model's numbers (canonical form is
preserved: negation does not change divisibility by ten). -/
def JsNum.neg : JsNum → JsNum
  | .finite d => .finite ⟨-d.m, d.e⟩
  | .inf => .negInf
  | .negInf => .inf

/-- String(n) for a number, on the region the development reaches:
infinities render as JavaScript renders them, and a finite value renders
as its exact positional decimal expansion, which coincides with the
JavaScript output for every short literal: small integers render as
their decimal numeral, 15 * 10^-1 renders as "1.5".  JavaScript switches
to exponent notation at or above 1e21 and below 1e-6 and prints the
shortest representation of the rounded double; those floating-point
corners are outside the model and no verified property reaches them. -/
def jsNumToString : JsNum → String
  | .inf => "Infinity"
  | .negInf => "-Infinity"
  | .finite d => d.render

/-- The Value union of SearchBuilder.ts: boolean | number | string | Date.
A Date is carried as its ISO-8601 string (the only thing formatValue uses).
vUndefined models the JavaScript undefined that the parser's in-list loop
reads past the end of the token array. -/
inductive Value where
  | vBool (b : Bool) : Value
  | vNum (n : JsNum) : Value
  | vStr (s : String) : Value
  | vDate (iso : String) : Value
  | vUndefined : Value
deriving DecidableEq, Repr

/-- value.replace of SearchBuilder.ts line 53: every apostrophe of the
string is doubled, all other characters are kept. -/
def escQuotes : List Char → List Char
  | [] => []
  | c :: cs => if c = '\'' then '\'' :: '\'' :: escQuotes cs else c :: escQuotes cs

/-- formatValue of SearchBuilder.ts: strings are wrapped in single quotes
with each embedded apostrophe doubled; a Date becomes its ISO string;
booleans and numbers render as JavaScript String(...) does (vUndefined,
which no terminating path ever formats, renders as "undefined"). -/
def formatValue : Value → String
  | .vStr s => "'" ++ String.mk (escQuotes s.data) ++ "'"
  | .vDate iso => iso
  | .vBool b => if b then "true" else "false"
  | .vNum n => jsNumToString n
  | .vUndefined => "undefined"

namespace SearchBuilder

/-- Static SearchBuilder.eq. -/
def eqS (field : String) (value : Value) : String :=
  field ++ " eq " ++ formatValue value

/-- Static SearchBuilder.ne. -/
def neS (field : String) (value : Value) : String :=
  field ++ " ne " ++ formatValue value

/-- Static SearchBuilder.gt. -/
def gtS (field : String) (value : Value) : String :=
  field ++ " gt " ++ formatValue value

/-- Static SearchBuilder.lt. -/
def ltS (field : String) (value : Value) : String :=
  field ++ " lt " ++ formatValue value

/-- Static SearchBuilder.ge. -/
def geS (field : String) (value : Value) : String :=
  field ++ " ge " ++ formatValue value

/-- Static SearchBuilder.le. -/
def leS (field : String) (value : Value) : String :=
  field ++ " le " ++ formatValue value

/-- Static SearchBuilder.in on an actual array: the Array.isArray check
passes and the clause is emitted. -/
def inS (field : String) (values : List Value) : String :=
  field ++ " in (" ++ String.intercalate ", " (values.map formatValue) ++ ")"

/-- Static SearchBuilder.contains. -/
def containsS (field : String) (value : Value) : String :=
  "contains(" ++ field ++ ", " ++ formatValue value ++ ")"

/-- Static SearchBuilder.startswith. -/
def startswithS (field : String) (value : Value) : String :=
  "startswith(" ++ field ++ ", " ++ formatValue value ++ ")"

/-- Static SearchBuilder.endswith. -/
def endswithS (field : String) (value : Value) : String :=
  "endswith(" ++ field ++ ", " ++ formatValue value ++ ")"

/-- The AnyOptions record: { operator: Operators; value: Value }, with the
operator name kept as the runtime string used for the property lookup. -/
structure AnyOptions where
  operator : String
  value : Value
deriving DecidableEq, Repr

/-- The second argument of SearchBuilder.any as passed at runtime: the
typed call passes an AnyOptions record, but the recursive call inside
the static any passes a plain Value in that position. -/
inductive AnyArg where
  | opts (o : AnyOptions) : AnyArg
  | val (v : Value) : AnyArg
deriving DecidableEq, Repr

/-- The own static methods of class SearchBuilder, i.e. the keys for which
the property access SearchBuilder[name] yields a function. -/
inductive StaticGen where
  | anyG | eqG | neG | gtG | ltG | geG | leG | inG | containsG | startswithG | endswithG
deriving DecidableEq, Repr

/-- Own non-method properties of the class function object (length, name,
prototype) and the string-keyed properties it inherits from
Function.prototype and Object.prototype.  SearchBuilder[name] yields a
value for these too, so the InvalidOperator path is not taken: most are
functions that raise TypeErrors when invoked without their receiver,
name and prototype are truthy non-functions, length is the falsy 0 (which
the !fn guard does catch), and __proto__ — Function.prototype itself —
is even callable and lets the generator succeed.  These varied behaviors
are left outside the model: anyS marks such a name outsideModel and no
verified property evaluates the generator there. -/
def classObjectProp (s : String) : Bool :=
  ["length", "name", "prototype", "apply", "arguments", "bind", "call",
   "caller", "constructor", "toString", "hasOwnProperty", "isPrototypeOf",
   "propertyIsEnumerable", "toLocaleString", "valueOf", "__defineGetter__",
   "__defineSetter__", "__lookupGetter__", "__lookupSetter__", "__proto__"].contains s

/-- The property lookup SearchBuilder[name] over the class's OWN STATIC
METHODS (SearchBuilder.ts lines 413-415); names outside this table and
outside classObjectProp resolve to undefined. -/
def staticLookup : String → Option StaticGen
  | "any" => some .anyG
  | "eq" => some .eqG
  | "ne" => some .neG
  | "gt" => some .gtG
  | "lt" => some .ltG
  | "ge" => some .geG
  | "le" => some .leG
  | "in" => some .inG
  | "contains" => some .containsG
  | "startswith" => some .startswithG
  | "endswith" => some .endswithG
  | _ => none

/-- Static SearchBuilder.any.  The operator is read off the options
argument (reading .operator from a plain Value yields undefined, and no
property of the class is named "undefined", so the lookup misses and
"Invalid operator" is thrown); a found generator is applied as
fn("x", options.value); applying the static in to a single Value fails
its Array.isArray check; an operator naming an own non-method or
inherited property of the class object is marked outsideModel.  Note the
emitted template ends with exactly two closing parentheses
(SearchBuilder.ts line 421). -/
def anyS (field : String) : AnyArg → Except JsError String
  | .val _ => .error .invalidOperator
  | .opts ⟨op, v⟩ =>
    match staticLookup op with
    | none => if classObjectProp op then .error .outsideModel else .error .invalidOperator
    | some g =>
      let inner : Except JsError String :=
        match g with
        | .eqG => .ok (eqS "x" v)
        | .neG => .ok (neS "x" v)
        | .gtG => .ok (gtS "x" v)
        | .ltG => .ok (ltS "x" v)
        | .geG => .ok (geS "x" v)
        | .leG => .ok (leS "x" v)
        | .containsG => .ok (containsS "x" v)
        | .startswithG => .ok (startswithS "x" v)
        | .endswithG => .ok (endswithS "x" v)
        | .inG => .error .inRequiresArray
        | .anyG => anyS "x" (.val v)
      inner.map (fun s => "(" ++ field ++ "/any(x:(" ++ s ++ "))")
termination_by a => sizeOf a
decreasing_by simp_wf

end SearchBuilder

namespace SearchParser

/-- The character class \s of a JavaScript regex (and the characters
String.prototype gives to ToNumber trimming): ASCII whitespace, NBSP,
the Unicode space separators, the line separators and the BOM. -/
def jsSpace (c : Char) : Bool :=
  let n := c.toNat
  n = 9 || n = 10 || n = 11 || n = 12 || n = 13 || n = 32 ||
  n = 0xA0 || n = 0x1680 || (0x2000 ≤ n && n ≤ 0x200A) ||
  n = 0x2028 || n = 0x2029 || n = 0x202F || n = 0x205F || n = 0x3000 || n = 0xFEFF

/-- The character class \w of a JavaScript regex: ASCII letters, digits
and underscore. -/
def wordChar (c : Char) : Bool :=
  let n := c.toNat
  (97 ≤ n && n ≤ 122) || (65 ≤ n && n ≤ 90) || (48 ≤ n && n ≤ 57) || n = 95

/-- A character the tokenizer's last alternative [^\s()]+ accepts. -/
def bareChar (c : Char) : Bool :=
  !jsSpace c && c ≠ '(' && c ≠ ')'

/-- A JavaScript line terminator, which the regex metacharacter . (dot)
does not match. -/
def lineTerm (c : Char) : Bool :=
  let n := c.toNat
  n = 10 || n = 13 || n = 0x2028 || n = 0x2029

/-- Match a literal character sequence at the head of the input and
return the rest, or fail. -/
def dropPre : List Char → List Char → Option (List Char)
  | [], cs => some cs
  | _ :: _, [] => none
  | p :: ps, c :: cs => if c = p then dropPre ps cs else none

/-- Whether the position between prev and the current character is NOT a
word boundary start, i.e. the previous character is a word character
(start of input counts as a non-word side). -/
def prevIsWord : Option Char → Bool
  | some c => wordChar c
  | none => false

/-- Alternative 1 of the tokenizer regex for one function keyword:
kw\s*\(([^)]+)\) with a word boundary \b before kw.  The whitespace run,
the parenthesis, the non-empty run of non-')' characters and the closing
')' are each forced, so the alternative is deterministic. -/
def fnAlt1 (kw : List Char) (cs : List Char) : Option (List Char × List Char) := do
  let r1 ← dropPre kw cs
  let ws := r1.takeWhile jsSpace
  let r2 := r1.drop ws.length
  match r2 with
  | '(' :: r3 =>
    let arg := r3.takeWhile (fun c => c ≠ ')')
    if arg.isEmpty then none
    else
      match r3.drop arg.length with
      | ')' :: r5 => some (kw ++ ws ++ '(' :: (arg ++ [')']), r5)
      | _ => none
  | _ => none

/-- Alternative 1 of the tokenizer regex:
\b(?:contains|startswith|endswith)\s*\(([^)]+)\), trying the three
function names in their alternation order. -/
def altFn (prev : Option Char) (cs : List Char) : Option (List Char × List Char) :=
  if prevIsWord prev then none
  else
    fnAlt1 "contains".data cs <|> fnAlt1 "startswith".data cs <|> fnAlt1 "endswith".data cs

/-- One keyword attempt of alternative 2: \bkw\b — the previous character
must not be a word character and the character after the keyword, if any,
must not be one either. -/
def kwAlt1 (kw : List Char) (cs : List Char) : Option (List Char × List Char) := do
  let r ← dropPre kw cs
  match r with
  | [] => some (kw, [])
  | c :: _ => if wordChar c then none else some (kw, r)

/-- Alternative 2 of the tokenizer regex:
\b(?:and|or|in|eq|ne|gt|ge|lt|le)\b in alternation order. -/
def altKw (prev : Option Char) (cs : List Char) : Option (List Char × List Char) :=
  if prevIsWord prev then none
  else
    kwAlt1 "and".data cs <|> kwAlt1 "or".data cs <|> kwAlt1 "in".data cs <|>
    kwAlt1 "eq".data cs <|> kwAlt1 "ne".data cs <|> kwAlt1 "gt".data cs <|>
    kwAlt1 "ge".data cs <|> kwAlt1 "lt".data cs <|> kwAlt1 "le".data cs

/-- Alternatives 3 and 4 of the tokenizer regex: a lone \( or \). -/
def altParen : List Char → Option (List Char × List Char)
  | '(' :: r => some (['('], r)
  | ')' :: r => some ([')'], r)
  | _ => none

/-- Alternative 5 of the tokenizer regex: a single-quoted literal
'[^']*' — an apostrophe, a maximal run of non-apostrophes, and the next
apostrophe, which must exist. -/
def altQuote : List Char → Option (List Char × List Char)
  | '\'' :: r =>
    let mid := r.takeWhile (fun c => c ≠ '\'')
    match r.drop mid.length with
    | '\'' :: r3 => some ('\'' :: (mid ++ ['\'']), r3)
    | _ => none
  | _ => none

/-- Alternative 6 of the tokenizer regex: [^\s()]+, a maximal non-empty
run of characters that are neither whitespace nor parentheses. -/
def altBare (cs : List Char) : Option (List Char × List Char) :=
  let run := cs.takeWhile bareChar
  if run.isEmpty then none else some (run, cs.drop run.length)

/-- The whole tokenizer regex applied at one position: the six
alternatives are tried in their alternation order and the first that
matches wins (none of them can match the empty string). -/
def matchAt (prev : Option Char) (cs : List Char) : Option (List Char × List Char) :=
  altFn prev cs <|> altKw prev cs <|> altParen cs <|> altQuote cs <|> altBare cs

/-- The regex.exec scan loop: at each position try the pattern; on a
match emit it and resume right after it, otherwise advance one character.
prev carries the character before the current position for the word
boundary checks.  Each step consumes at least one character, so fuel
equal to the untokenized length suffices exactly. -/
def scanTokens : Nat → Option Char → List Char → List String
  | 0, _, _ => []
  | _ + 1, _, [] => []
  | fuel + 1, prev, c :: cs =>
    match matchAt prev (c :: cs) with
    | some (tok, rest) => String.mk tok :: scanTokens fuel (tok.getLastD c) rest
    | none => scanTokens fuel (some c) cs

/-- SearchParser.tokenize: run the global regex scan over the input. -/
def tokenize (input : String) : List String :=
  scanTokens input.data.length none input.data

/-- An ASCII hexadecimal digit. -/
def isHexDigit (c : Char) : Bool :=
  ('0' ≤ c && c ≤ '9') || ('a' ≤ c && c ≤ 'f') || ('A' ≤ c && c ≤ 'F')

/-- The numeric value of one digit (decimal or hexadecimal, either
case). -/
def digitVal (c : Char) : Nat :=
  if c ≤ '9' then c.toNat - 48 else if c ≤ 'F' then c.toNat - 55 else c.toNat - 87

/-- The value of a digit run in the given base (digits are validated by
the callers). -/
def digitsVal (base : Nat) (ds : List Char) : Nat :=
  ds.foldl (fun acc c => acc * base + digitVal c) 0

/-- The exact decimal of a decimal literal with integer digits d1,
fraction digits d2 and decimal exponent e. -/
def decValue (d1 d2 : List Char) (e : Int) : Dec10 :=
  Dec10.make (digitsVal 10 (d1 ++ d2) : Nat) (e - d2.length)

/-- The optional ExponentPart of the ToNumber string grammar: an empty
rest means exponent zero; otherwise e or E, an optional sign, and a
non-empty digit run consuming the whole rest. -/
def expPart? : List Char → Option Int
  | [] => some 0
  | e :: rest =>
    if e = 'e' ∨ e = 'E' then
      match rest with
      | '+' :: ds =>
        if !ds.isEmpty && ds.all Char.isDigit then some (digitsVal 10 ds : Nat) else none
      | '-' :: ds =>
        if !ds.isEmpty && ds.all Char.isDigit then some (-(digitsVal 10 ds : Nat) : Int) else none
      | ds =>
        if !ds.isEmpty && ds.all Char.isDigit then some (digitsVal 10 ds : Nat) else none
    else none

/-- StrUnsignedDecimalLiteral of the ToNumber string grammar, consuming
the whole list: the literal Infinity; digits, an optional fraction and
an optional exponent; or a fraction alone with an optional exponent. -/
def unsignedDec? (cs : List Char) : Option JsNum :=
  if cs = "Infinity".data then some .inf
  else
    let d1 := cs.takeWhile Char.isDigit
    match cs.drop d1.length with
    | '.' :: r2 =>
      let d2 := r2.takeWhile Char.isDigit
      if d1.isEmpty && d2.isEmpty then none
      else (expPart? (r2.drop d2.length)).map (fun e => .finite (decValue d1 d2 e))
    | r1 =>
      if d1.isEmpty then none
      else (expPart? r1).map (fun e => .finite (decValue d1 [] e))

/-- NonDecimalIntegerLiteral of the ToNumber string grammar: 0x/0X, 0o/0O
or 0b/0B followed by a non-empty run of digits of that base, consuming
the whole list (no sign is allowed on these). -/
def nonDecInt? : List Char → Option JsNum
  | '0' :: x :: ds =>
    if x = 'x' ∨ x = 'X' then
      if !ds.isEmpty && ds.all isHexDigit then some (.finite (Dec10.make (digitsVal 16 ds : Nat) 0)) else none
    else if x = 'o' ∨ x = 'O' then
      if !ds.isEmpty && ds.all (fun c => '0' ≤ c && c ≤ '7') then
        some (.finite (Dec10.make (digitsVal 8 ds : Nat) 0))
      else none
    else if x = 'b' ∨ x = 'B' then
      if !ds.isEmpty && ds.all (fun c => c = '0' || c = '1') then
        some (.finite (Dec10.make (digitsVal 2 ds : Nat) 0))
      else none
    else none
  | _ => none

/-- The JavaScript unary + conversion used by parseValue
(SearchParser.ts line 109), as the exact ToNumber string grammar:
surrounding whitespace is trimmed, an empty remainder converts to 0, a
sign may precede a decimal literal (Infinity included), and an unsigned
remainder may also be a hex, octal or binary literal; every other string
is NaN (none).  The result carries the literal's exact value as a
canonical decimal — rounding to double is outside the model, see the
file comment. -/
def jsToNumber? (s : String) : Option JsNum :=
  let cs := ((s.data.dropWhile jsSpace).reverse.dropWhile jsSpace).reverse
  match cs with
  | [] => some (.finite ⟨0, 0⟩)
  | '+' :: rest => unsignedDec? rest
  | '-' :: rest => (unsignedDec? rest).map JsNum.neg
  | _ => (nonDecInt? cs).orElse (fun _ => unsignedDec? cs)

/-- SearchParser.parseValue: a token whose first character is a single or
double quote is returned with its first and last characters sliced off
(slice(1, -1)); otherwise a token that converts to a number is that
number; every remaining token is returned unchanged. -/
def parseValue (token : String) : Value :=
  if token.data.head? = some '\'' ∨ token.data.head? = some '"' then
    .vStr (String.mk ((token.data.drop 1).dropLast))
  else
    match jsToNumber? token with
    | some n => .vNum n
    | none => .vStr token

/-- The in-membership while loop of SearchParser.parse (lines 59-63):
while (tokens[++i] !== ")") skip "," tokens and push parseValue of
everything else, an out-of-bounds read yielding undefined.  The loop has
no termination check of its own, so it is given explicit fuel; when no
")" lies ahead the real loop runs forever and every fuel value here is
exhausted. -/
def inLoop (tokens : List String) (i : Nat) (acc : List Value) :
    Nat → Except JsError (List Value × Nat)
  | 0 => .error .fuelOut
  | fuel + 1 =>
    match tokens.get? (i + 1) with
    | some s =>
      if s = ")" then .ok (acc.reverse, i + 1)
      else if s = "," then inLoop tokens (i + 1) acc fuel
      else inLoop tokens (i + 1) (parseValue s :: acc) fuel
    | none => inLoop tokens (i + 1) (.vUndefined :: acc) fuel

/-- The function-call token pattern of SearchParser.parse line 30:
token.match of ^(\w+)\(([^,]+),\s*(.+)\)$ — a maximal word run, '(',
a maximal non-empty comma-free run, ',', a whitespace run (greedy,
backtracking one character at a time), a non-empty dot-matchable run,
and a final ')' at the very end.  Returns (fn, field, rawVal). -/
def funcMatch (t : String) : Option (String × String × String) :=
  let cs := t.data
  let fn := cs.takeWhile wordChar
  if fn.isEmpty then none
  else
    match cs.drop fn.length with
    | '(' :: r2 =>
      let field := r2.takeWhile (fun c => c ≠ ',')
      if field.isEmpty then none
      else
        match r2.drop field.length with
        | ',' :: r4 =>
          let maxW := (r4.takeWhile jsSpace).length
          let tryW : Nat → Option (List Char) := fun k =>
            let v := (r4.drop k).dropLast
            if (r4.drop k).getLast? = some ')' && !v.isEmpty && v.all (fun c => !lineTerm c)
            then some v else none
          let rec search : Nat → Option (List Char)
            | 0 => tryW 0
            | k + 1 => tryW (k + 1) <|> search k
          (search maxW).map (fun v => (String.mk fn, String.mk field, String.mk v))
        | _ => none
    | _ => none

/-- String-keyed properties a SearchBuilder instance inherits beyond the
methods of its prototype: prototype.constructor and the Object.prototype
utilities.  Invoked as (searchBuilder)[fn](field, value) these have
varied behaviors — the utility calls mostly succeed with a discarded
result, constructor (a class) and __proto__ (a non-function) raise
TypeErrors — all unreachable from tokenize, whose function-call tokens
always name contains, startswith or endswith; they are marked
outsideModel. -/
def instanceProtoProp (s : String) : Bool :=
  ["constructor", "toString", "hasOwnProperty", "isPrototypeOf",
   "propertyIsEnumerable", "toLocaleString", "valueOf", "__defineGetter__",
   "__defineSetter__", "__lookupGetter__", "__lookupSetter__", "__proto__"].contains s

/-- The dynamic dispatch (searchBuilder)[fn](field, value) of
SearchParser.parse line 35 on the builder's query-parts list: the
comparison and string-predicate methods append their clause; in throws
because a single parsed Value is not an array; any throws because the
operator read off a plain value is undefined; the remaining instance
methods of the class ignore their arguments beyond their own arity;
inherited non-method properties are marked outsideModel; any other name
is undefined and not a function.  Tokenization only ever produces
function tokens whose fn is contains, startswith or endswith. -/
def dispatchFn (fn field : String) (value : Value) (b : List String) :
    Except JsError (List String) :=
  match fn with
  | "eq" => .ok (b ++ [SearchBuilder.eqS field value])
  | "ne" => .ok (b ++ [SearchBuilder.neS field value])
  | "gt" => .ok (b ++ [SearchBuilder.gtS field value])
  | "lt" => .ok (b ++ [SearchBuilder.ltS field value])
  | "ge" => .ok (b ++ [SearchBuilder.geS field value])
  | "le" => .ok (b ++ [SearchBuilder.leS field value])
  | "contains" => .ok (b ++ [SearchBuilder.containsS field value])
  | "startswith" => .ok (b ++ [SearchBuilder.startswithS field value])
  | "endswith" => .ok (b ++ [SearchBuilder.endswithS field value])
  | "in" => .error .inRequiresArray
  | "any" => .error .invalidOperator
  | "and" => .ok (b ++ ["and"])
  | "or" => .ok (b ++ ["or"])
  | "not" => .ok (b ++ ["not"])
  | "openGroup" => .ok (b ++ ["("])
  | "closeGroup" => .ok (b ++ [")"])
  | "add" => .ok (b ++ [field])
  | "build" => .ok b
  | "clone" => .ok b
  | _ => if instanceProtoProp fn then .error .outsideModel else .error (.notAFunction fn)

/-- The main for loop of SearchParser.parse, cursor i over the token
array, accumulating the builder's query parts.  Every iteration advances
i by at least one, so fuel = tokens.length + 1 can only run out if the
inner in-list loop has already diverged. -/
def parseGo (tokens : List String) : Nat → Nat → List String → Except JsError (List String)
  | 0, _, _ => .error .fuelOut
  | fuel + 1, i, b =>
    match tokens.get? i with
    | none => .ok b
    | some tok =>
      if tok = "and" then parseGo tokens fuel (i + 1) (b ++ ["and"])
      else if tok = "or" then parseGo tokens fuel (i + 1) (b ++ ["or"])
      else if tok = "(" then parseGo tokens fuel (i + 1) (b ++ ["("])
      else if tok = ")" then parseGo tokens fuel (i + 1) (b ++ [")"])
      else
        match funcMatch tok with
        | some (fn, field, rawVal) =>
          match dispatchFn fn field (parseValue rawVal) b with
          | .ok b' => parseGo tokens fuel (i + 1) b'
          | .error e => .error e
        | none =>
          let field := tok
          match tokens.get? (i + 1) with
          | none => .error (.expectedOperator field)
          | some op =>
            if op = "" then .error (.expectedOperator field)
            else if op = "in" then
              match tokens.get? (i + 2) with
              | some "(" =>
                match inLoop tokens (i + 2) [] (tokens.length + 1) with
                | .ok (values, iClose) =>
                  parseGo tokens fuel (iClose + 1) (b ++ [SearchBuilder.inS field values])
                | .error e => .error e
              | _ => .error (.expectedOpenParen field)
            else
              match tokens.get? (i + 2) with
              | none => .error (.expectedValue op field)
              | some rawValue =>
                if rawValue = "" then .error (.expectedValue op field)
                else
                  let value := parseValue rawValue
                  if op = "eq" then parseGo tokens fuel (i + 3) (b ++ [SearchBuilder.eqS field value])
                  else if op = "ne" then parseGo tokens fuel (i + 3) (b ++ [SearchBuilder.neS field value])
                  else if op = "gt" then parseGo tokens fuel (i + 3) (b ++ [SearchBuilder.gtS field value])
                  else if op = "lt" then parseGo tokens fuel (i + 3) (b ++ [SearchBuilder.ltS field value])
                  else if op = "ge" then parseGo tokens fuel (i + 3) (b ++ [SearchBuilder.geS field value])
                  else if op = "le" then parseGo tokens fuel (i + 3) (b ++ [SearchBuilder.leS field value])
                  else .error (.unsupportedOperator op)

/-- SearchParser.parse: tokenize, then replay the tokens as builder
calls starting from an empty builder.  The outer loop runs at most
tokens.length + 1 times, so that fuel is always sufficient for it. -/
def parse (filter : String) : Except JsError (List String) :=
  let tokens := tokenize filter
  parseGo tokens (tokens.length + 1) 0 []

end SearchParser

/-- SearchBuilder.build: join the query parts with single spaces. -/
def build (queryParts : List String) : String :=
  String.intercalate " " queryParts

/-- parse followed by build — the round-trip composite of the spec. -/
def parseBuild (s : String) : Except JsError String :=
  (SearchParser.parse s).map build

/-- The instance method SearchBuilder.any (SearchBuilder.ts lines
235-237): it returns the string produced by the static generator and
performs no this.add.  The instance method is modelled as a state
transformer on the queryParts list paired with the returned value; its
returned value is the generator's string result, not the builder, and
the state component it passes through is unchanged. -/
def SearchBuilder.anyInstance (queryParts : List String) (field : String)
    (options : SearchBuilder.AnyOptions) : List String × Except JsError String :=
  (queryParts, SearchBuilder.anyS field (.opts options))

/-- A store of SearchBuilder instances, making the JavaScript aliasing
of builder objects expressible: a builder reference is an index into the
store and every entry is that instance's private queryParts array. -/
structure Heap where
  parts : List (List String)
deriving DecidableEq, Repr

namespace Heap

/-- Read a builder's queryParts through its reference. -/
def get (h : Heap) (r : Nat) : List String :=
  h.parts.getD r []

/-- private add: push one condition onto the referenced instance's
queryParts, in place. -/
def addC (h : Heap) (r : Nat) (condition : String) : Heap :=
  ⟨h.parts.set r (h.get r ++ [condition])⟩

/-- SearchBuilder.clone (SearchBuilder.ts lines 118-124): allocate a new
instance and give it a copy of the source instance's queryParts
([...this.queryParts]), returning the new heap and the fresh reference. -/
def cloneSB (h : Heap) (r : Nat) : Heap × Nat :=
  (⟨h.parts ++ [h.get r]⟩, h.parts.length)

/-- SearchBuilder.build through a reference: join with single spaces,
no mutation. -/
def buildSB (h : Heap) (r : Nat) : String :=
  build (h.get r)

/-- Instance and(): append the keyword, return the same reference. -/
def andSB (h : Heap) (r : Nat) : Heap :=
  h.addC r "and"

/-- Instance eq(field, value): append the static clause, return the same
reference. -/
def eqSB (h : Heap) (r : Nat) (field : String) (value : Value) : Heap :=
  h.addC r (SearchBuilder.eqS field value)

/-- Any sequence of mutator calls on one instance: every mutator of the
class appends exactly one condition string via add, so an arbitrary
mutation sequence is an arbitrary list of appended conditions. -/
def addAll (h : Heap) (r : Nat) (conds : List String) : Heap :=
  conds.foldl (fun hh s => hh.addC r s) h

end Heap

/-! ## Helper lemmas -/

/-- Doubling apostrophes doubles the apostrophe count and nothing else. -/
theorem escQuotes_count (l : List Char) :
    (escQuotes l).count '\'' = 2 * l.count '\'' := by
  induction l with
  | nil => rfl
  | cons c cs ih =>
    by_cases hc : c = '\''
    · simp [escQuotes, hc, List.count_cons, ih]
      omega
    · simp [escQuotes, hc, List.count_cons, ih]

/-- Appending a condition through one reference leaves every other
instance's queryParts untouched. -/
theorem Heap.get_addC_ne (h : Heap) (r c : Nat) (s : String) (hne : r ≠ c) :
    (h.addC c s).get r = h.get r := by
  simp [Heap.addC, Heap.get, List.getD, List.getElem?_set_ne (Ne.symm hne)]

/-- A whole mutation sequence through one reference leaves every other
instance's queryParts untouched. -/
theorem Heap.get_addAll_ne (conds : List String) (h : Heap) (r c : Nat) (hne : r ≠ c) :
    (h.addAll c conds).get r = h.get r := by
  induction conds generalizing h with
  | nil => rfl
  | cons x xs ih =>
    simpa [Heap.addAll] using (ih (h.addC c x)).trans (Heap.get_addC_ne h r c x hne)

namespace SearchParser

/-- No alternative of the tokenizer regex can start at a whitespace
character: the function and keyword literals start with letters, the
grouping and quote alternatives with their own marks, and the bare-token
class excludes whitespace. -/
theorem matchAt_space (prev : Option Char) (c : Char) (cs : List Char)
    (hc : jsSpace c = true) : matchAt prev (c :: cs) = none := by
  have hne : ∀ d : Char, jsSpace d = false → c ≠ d := by
    intro d hd hcd; rw [hcd, hd] at hc; exact Bool.false_ne_true hc
  have h1 : c ≠ 'c' := hne 'c' (by decide)
  have h2 : c ≠ 's' := hne 's' (by decide)
  have h3 : c ≠ 'e' := hne 'e' (by decide)
  have h4 : c ≠ 'a' := hne 'a' (by decide)
  have h5 : c ≠ 'o' := hne 'o' (by decide)
  have h6 : c ≠ 'i' := hne 'i' (by decide)
  have h7 : c ≠ 'n' := hne 'n' (by decide)
  have h8 : c ≠ 'g' := hne 'g' (by decide)
  have h9 : c ≠ 'l' := hne 'l' (by decide)
  have h10 : c ≠ '(' := hne '(' (by decide)
  have h11 : c ≠ ')' := hne ')' (by decide)
  have h12 : c ≠ '\'' := hne '\'' (by decide)
  have hbare : bareChar c = false := by simp [bareChar, hc]
  simp only [matchAt, altFn, altKw, altParen, altQuote, altBare, fnAlt1, kwAlt1,
    show "contains".data = 'c' :: "ontains".data from rfl,
    show "startswith".data = 's' :: "tartswith".data from rfl,
    show "endswith".data = 'e' :: "ndswith".data from rfl,
    show "and".data = 'a' :: "nd".data from rfl,
    show "or".data = 'o' :: "r".data from rfl,
    show "in".data = 'i' :: "n".data from rfl,
    show "eq".data = 'e' :: "q".data from rfl,
    show "ne".data = 'n' :: "e".data from rfl,
    show "gt".data = 'g' :: "t".data from rfl,
    show "ge".data = 'g' :: "e".data from rfl,
    show "lt".data = 'l' :: "t".data from rfl,
    show "le".data = 'l' :: "e".data from rfl]
  simp [dropPre, h1, h2, h3, h4, h5, h6, h7, h8, h9, h10, h11, h12,
    List.takeWhile_cons, hbare]

/-- The regex scan over input consisting only of whitespace produces no
token: no alternative matches at any position, so every position is
skipped. -/
theorem scanTokens_space : ∀ (fuel : Nat) (prev : Option Char) (cs : List Char),
    (∀ c ∈ cs, jsSpace c = true) → scanTokens fuel prev cs = [] := by
  intro fuel
  induction fuel with
  | zero => intro prev cs _; rfl
  | succ n ih =>
    intro prev cs h
    cases cs with
    | nil => rfl
    | cons c cs' =>
      unfold scanTokens
      rw [matchAt_space prev c cs' (h c (by simp))]
      exact ih (some c) cs' (fun d hd => h d (by simp [hd]))

/-- tokenize of an all-whitespace input is the empty token list. -/
theorem tokenize_space (s : String) (h : ∀ c ∈ s.data, jsSpace c = true) :
    tokenize s = [] :=
  scanTokens_space s.data.length none s.data h

/-- If no ")" token lies anywhere after the cursor, the in-membership
while loop exhausts any amount of fuel: every out-of-bounds read yields
undefined, which is never ")", so the scan in the source runs forever. -/
theorem inLoop_no_close (tokens : List String) :
    ∀ (fuel i : Nat) (acc : List Value), ")" ∉ tokens.drop (i + 1) →
      inLoop tokens i acc fuel = .error .fuelOut := by
  intro fuel
  induction fuel with
  | zero => intro i acc _; rfl
  | succ n ih =>
    intro i acc h
    have hstep : ")" ∉ tokens.drop (i + 2) := by
      intro hmem
      apply h
      have hdd : tokens.drop (i + 2) = (tokens.drop (i + 1)).drop 1 := by
        rw [List.drop_drop]
      exact List.drop_subset 1 _ (hdd ▸ hmem)
    unfold inLoop
    split
    next s heq =>
      have hs : s ≠ ")" := by
        intro hrfl
        apply h
        have h0 : (tokens.drop (i + 1)).get? 0 = some s := by
          rw [List.get?_eq_getElem?, List.getElem?_drop]; simpa using heq
        exact hrfl ▸ List.get?_mem h0
      rw [if_neg hs]
      by_cases hcomma : s = ","
      · rw [if_pos hcomma]; exact ih (i + 1) acc hstep
      · rw [if_neg hcomma]; exact ih (i + 1) (parseValue s :: acc) hstep
    next heq => exact ih (i + 1) (Value.vUndefined :: acc) hstep

end SearchParser

/-! Claim theorems -/

/-- C1, counterexample: the universal round trip fails on the
grammar-accepted filter string "a in (1, 2)".  The bare-token rule of the
tokenizer absorbs the comma after an unquoted in-list member, so the
numeric member 1 is parsed as the string "1," and rebuilt as the quoted
literal '1,' — not a canonical-value-formatting or whitespace difference. -/
theorem c1_round_trip_counterexample :
    parseBuild "a in (1, 2)" = .ok "a in ('1,', 2)" ∧
    ("a in ('1,', 2)" : String) ≠ "a in (1, 2)" :=
  ⟨rfl, by decide⟩

/-- C1, amended: the concrete example does round-trip exactly —
parse("name eq 'John' and age gt 30").build() returns the input string —
but the round trip does not extend to every grammar-accepted string
(unquoted in-list members absorb the adjacent comma, see the
counterexample). -/
theorem c1_round_trip_example :
    parseBuild "name eq 'John' and age gt 30" = .ok "name eq 'John' and age gt 30" :=
  rfl

/-- C2: the code contradicts the claim (and its own JSDoc examples):
any("tags", {operator: "eq", value: "v"}) returns the unbalanced string
"(tags/any(x:(x eq 'v'))" with two trailing closing parentheses, not the
claimed "(tags/any(x:(x eq 'v')))" — the template at SearchBuilder.ts
line 421 is missing one ')'. -/
theorem c2_any_clause_unbalanced :
    SearchBuilder.anyS "tags" (.opts ⟨"eq", .vStr "v"⟩) = .ok "(tags/any(x:(x eq 'v'))" ∧
    ("(tags/any(x:(x eq 'v'))" : String) ≠ "(tags/any(x:(x eq 'v')))" := by
  refine ⟨?_, by decide⟩
  simp [SearchBuilder.anyS, SearchBuilder.staticLookup, Except.map, SearchBuilder.eqS,
    formatValue, escQuotes]

/-- C3, counterexample: any with operator "in" does not fail with the
InvalidOperator condition — the static lookup finds SearchBuilder.in, so
the failure is the ArgumentError-kind condition of the in generator
applied to a non-array value. -/
theorem c3_any_in_counterexample :
    SearchBuilder.anyS "tags" (.opts ⟨"in", .vNum (.finite ⟨1, 0⟩)⟩) = .error .inRequiresArray ∧
    JsError.inRequiresArray ≠ JsError.invalidOperator := by
  refine ⟨?_, by decide⟩
  simp [SearchBuilder.anyS, SearchBuilder.staticLookup, Except.map]

/-- C3, amended: for the operators the claim lists — "and" and "or" name
no property of the class at all, so the lookup yields undefined and any
fails with InvalidOperator for every field and value; "any" also fails
with InvalidOperator, through its recursive application to the plain
value, whose .operator read is undefined; but "in" is found as the
static in generator and fails instead with the ArgumentError-kind
condition "'in' requires array"; "eq" succeeds.  No "exactly when"
characterization by lookup failure holds: the dynamic property lookup
also reaches own non-method and inherited properties of the class object
(call, name, __proto__, ...) whose behaviors are neither InvalidOperator
nor a generator application. -/
theorem c3_any_operator_errors :
    (∀ (f : String) (v : Value),
      SearchBuilder.anyS f (.opts ⟨"and", v⟩) = .error .invalidOperator) ∧
    (∀ (f : String) (v : Value),
      SearchBuilder.anyS f (.opts ⟨"or", v⟩) = .error .invalidOperator) ∧
    (∀ (f : String) (v : Value),
      SearchBuilder.anyS f (.opts ⟨"any", v⟩) = .error .invalidOperator) ∧
    (∀ (f : String) (v : Value),
      SearchBuilder.anyS f (.opts ⟨"in", v⟩) = .error .inRequiresArray) ∧
    (∀ (f : String) (v : Value),
      SearchBuilder.anyS f (.opts ⟨"eq", v⟩) =
        .ok ("(" ++ f ++ "/any(x:(" ++ SearchBuilder.eqS "x" v ++ "))")) := by
  have hand : SearchBuilder.classObjectProp "and" = false := by decide
  have hor : SearchBuilder.classObjectProp "or" = false := by decide
  refine ⟨?_, ?_, ?_, ?_, ?_⟩
  · intro f v; simp [SearchBuilder.anyS, SearchBuilder.staticLookup, hand, Except.map]
  · intro f v; simp [SearchBuilder.anyS, SearchBuilder.staticLookup, hor, Except.map]
  · intro f v; simp [SearchBuilder.anyS, SearchBuilder.staticLookup, Except.map]
  · intro f v; simp [SearchBuilder.anyS, SearchBuilder.staticLookup, Except.map]
  · intro f v; simp [SearchBuilder.anyS, SearchBuilder.staticLookup, Except.map]

/-- C4: the code contradicts the claim (and the method's own JSDoc): the
instance method any returns the static generator's string and leaves the
builder's queryParts untouched — it neither appends the clause nor
returns the builder, so b.any(f, o).build() would be a runtime type
error in the source. -/
theorem c4_any_instance_returns_string : ∀ b : List String,
    SearchBuilder.anyInstance b "tags" ⟨"eq", .vStr "important"⟩ =
      (b, .ok "(tags/any(x:(x eq 'important'))") ∧
    build (SearchBuilder.anyInstance b "tags" ⟨"eq", .vStr "important"⟩).1 = build b := by
  intro b
  constructor
  · simp [SearchBuilder.anyInstance, SearchBuilder.anyS, SearchBuilder.staticLookup,
      Except.map, SearchBuilder.eqS, formatValue, escQuotes]
  · rfl

/-- C5: the code contradicts the claim: on "a in (1" the in-membership
scan never meets a ")" token, and every out-of-bounds read yields
undefined, so the while loop of SearchParser.parse runs forever — shown
here by the loop exhausting every fuel value — instead of raising the
claimed SyntaxError-kind condition. -/
theorem c5_in_list_scan_diverges :
    SearchParser.tokenize "a in (1" = ["a", "in", "(", "1"] ∧
    (∀ (fuel : Nat) (acc : List Value),
      SearchParser.inLoop ["a", "in", "(", "1"] 2 acc fuel = .error .fuelOut) ∧
    SearchParser.parse "a in (1" = .error .fuelOut :=
  ⟨rfl, fun fuel acc => SearchParser.inLoop_no_close _ fuel 2 acc (by decide), rfl⟩

/-- C6, counterexample: the token "'abc" is neither bounded by matching
quotes at both ends nor a decimal number, so the claim says it is
returned unchanged; the code only tests the FIRST character and slices
one character off each end, returning "ab". -/
theorem c6_parse_value_counterexample :
    SearchParser.parseValue "'abc" = .vStr "ab" ∧ Value.vStr "ab" ≠ .vStr "'abc" :=
  ⟨rfl, by decide⟩

/-- C6, amended: the three-way rule keyed on the first character alone —
a token whose first character is a single or double quote has its first
and last characters stripped, whatever its last character is (tokens
bounded by matching quotes are the special case the claim described);
any other token accepted by the ToNumber string grammar (decimal with
optional fraction and exponent, hex/octal/binary, Infinity — not only
the claim's plain decimals) is that number; exactly the tokens that
grammar rejects are returned unchanged.  The concrete conjuncts pin the
grammar-boundary inputs: "1.5", "1e3", "0x10" and "Infinity" convert to
numbers, "abc" stays a bare string. -/
theorem c6_parse_value_trichotomy : ∀ t : String,
    (t.data.head? = some '\'' ∨ t.data.head? = some '"' →
      SearchParser.parseValue t = .vStr (String.mk ((t.data.drop 1).dropLast))) ∧
    (¬(t.data.head? = some '\'' ∨ t.data.head? = some '"') →
      ∀ n : JsNum, SearchParser.jsToNumber? t = some n → SearchParser.parseValue t = .vNum n) ∧
    (¬(t.data.head? = some '\'' ∨ t.data.head? = some '"') →
      SearchParser.jsToNumber? t = none → SearchParser.parseValue t = .vStr t) ∧
    SearchParser.parseValue "1.5" = .vNum (.finite ⟨15, -1⟩) ∧
    SearchParser.parseValue "1e3" = .vNum (.finite ⟨1, 3⟩) ∧
    SearchParser.parseValue "0x10" = .vNum (.finite ⟨16, 0⟩) ∧
    SearchParser.parseValue "Infinity" = .vNum .inf ∧
    SearchParser.parseValue "abc" = .vStr "abc" := by
  intro t
  refine ⟨fun hq => ?_, fun hq n hn => ?_, fun hq hn => ?_, rfl, rfl, rfl, rfl, rfl⟩
  · rw [SearchParser.parseValue, if_pos hq]
  · rw [SearchParser.parseValue, if_neg hq, hn]
  · rw [SearchParser.parseValue, if_neg hq, hn]

/-- C6 witness: the trichotomy evaluated at the quoted token "'John'". -/
theorem c6_parse_value_trichotomy_witness :
    SearchParser.parseValue "'John'" = .vStr "John" :=
  ((c6_parse_value_trichotomy "'John'").1 (Or.inl rfl)).trans (by decide)

/-- C7, counterexample: "'O''Brien'" does NOT tokenize as "'O'" followed
by the bare fragment "Brien'" — the second token re-captures both
remaining apostrophes and is the quoted token "'Brien'". -/
theorem c7_tokenize_escape_counterexample :
    SearchParser.tokenize "'O''Brien'" = ["'O'", "'Brien'"] ∧
    (["'O'", "'Brien'"] : List String) ≠ ["'O'", "Brien'"] :=
  ⟨rfl, by decide⟩

/-- C7, amended: the tokenizer indeed does not special-case the doubled
apostrophe escape — "'O''Brien'" is not one string token but two — yet
the split is "'O'" followed by the quoted token "'Brien'" (the third
apostrophe opens a second literal that the final apostrophe closes),
not a bare "Brien'" fragment. -/
theorem c7_tokenize_escape :
    SearchParser.tokenize "'O''Brien'" = ["'O'", "'Brien'"] ∧
    (SearchParser.tokenize "'O''Brien'").length ≠ 1 :=
  ⟨rfl, by decide⟩

/-- C8: formatValue on a string wraps the apostrophe-doubled body in
single quotes; the result carries exactly twice the apostrophes of the
input among its escape sequences plus the two wrapping quotes; and
"O'Brien" formats as "'O''Brien'". -/
theorem c8_quote_escaping : ∀ s : String,
    formatValue (.vStr s) = "'" ++ String.mk (escQuotes s.data) ++ "'" ∧
    (formatValue (.vStr s)).data.count '\'' = 2 * s.data.count '\'' + 2 ∧
    formatValue (.vStr "O'Brien") = "'O''Brien'" := by
  intro s
  refine ⟨rfl, ?_, by decide⟩
  show ("'" ++ String.mk (escQuotes s.data) ++ "'").data.count '\'' = _
  rw [String.data_append, String.data_append]
  simp [List.count_append, escQuotes_count]

/-- C9: clone independence in the heap model.  Cloning allocates a fresh
instance holding a copy of the source's queryParts, so any sequence of
mutations through the clone's reference leaves the original's build
unchanged, any sequence through the original leaves the clone's build
unchanged, and in particular the concrete c.and().eq("x", 1) does not
alter b.build(). -/
theorem c9_clone_independence : ∀ (h : Heap) (r : Nat), r < h.parts.length →
    (∀ conds : List String,
      Heap.buildSB (Heap.addAll (Heap.cloneSB h r).1 (Heap.cloneSB h r).2 conds) r =
        Heap.buildSB h r) ∧
    (∀ conds : List String,
      Heap.buildSB (Heap.addAll (Heap.cloneSB h r).1 r conds) (Heap.cloneSB h r).2 =
        Heap.buildSB (Heap.cloneSB h r).1 (Heap.cloneSB h r).2) ∧
    Heap.buildSB
      (Heap.eqSB (Heap.andSB (Heap.cloneSB h r).1 (Heap.cloneSB h r).2)
        (Heap.cloneSB h r).2 "x" (.vNum (.finite ⟨1, 0⟩))) r = Heap.buildSB h r := by
  intro h r hr
  have hne : r ≠ (Heap.cloneSB h r).2 := by
    simp only [Heap.cloneSB]
    omega
  have hget : (Heap.cloneSB h r).1.get r = h.get r := by
    simp only [Heap.cloneSB, Heap.get, List.getD]
    rw [List.get?_eq_getElem?, List.get?_eq_getElem?, List.getElem?_append_left hr]
  refine ⟨?_, ?_, ?_⟩
  · intro conds
    unfold Heap.buildSB
    rw [Heap.get_addAll_ne conds _ r _ hne, hget]
  · intro conds
    unfold Heap.buildSB
    rw [Heap.get_addAll_ne conds _ _ r (Ne.symm hne)]
  · unfold Heap.buildSB Heap.eqSB Heap.andSB
    rw [Heap.get_addC_ne _ r _ _ hne, Heap.get_addC_ne _ r _ _ hne, hget]

/-- C9 witness: clone independence at a one-builder heap holding the
clause "a eq 'x'": after c.and().eq("x", 1) on the clone, the original
still builds to "a eq 'x'". -/
theorem c9_clone_independence_witness :
    (0 : Nat) < (Heap.mk [["a eq 'x'"]]).parts.length ∧
    Heap.buildSB
      (Heap.eqSB
        (Heap.andSB (Heap.cloneSB ⟨[["a eq 'x'"]]⟩ 0).1 (Heap.cloneSB ⟨[["a eq 'x'"]]⟩ 0).2)
        (Heap.cloneSB ⟨[["a eq 'x'"]]⟩ 0).2 "x" (.vNum (.finite ⟨1, 0⟩))) 0 = "a eq 'x'" :=
  ⟨by decide, ((c9_clone_independence ⟨[["a eq 'x'"]]⟩ 0 (by decide)).2.2).trans (by decide)⟩

/-- C10: the empty input and every all-whitespace input tokenize to no
tokens, so parse raises nothing and returns a builder with an empty
clause sequence, whose build is the empty string. -/
theorem c10_empty_and_whitespace :
    SearchParser.parse "" = .ok [] ∧ parseBuild "" = .ok "" ∧
    (∀ s : String, (∀ c ∈ s.data, SearchParser.jsSpace c = true) →
      SearchParser.parse s = .ok [] ∧ parseBuild s = .ok "") := by
  refine ⟨rfl, rfl, fun s h => ?_⟩
  have ht := SearchParser.tokenize_space s h
  constructor
  · unfold SearchParser.parse
    rw [ht]
    rfl
  · unfold parseBuild SearchParser.parse
    rw [ht]
    rfl

/-- C10 witness: the all-whitespace input " \t " parses to the empty
builder. -/
theorem c10_empty_and_whitespace_witness :
    (∀ c ∈ (" \t " : String).data, SearchParser.jsSpace c = true) ∧
    SearchParser.parse " \t " = .ok [] :=
  ⟨by decide, (c10_empty_and_whitespace.2.2 " \t " (by decide)).1⟩

end OData

